import Mathlib

/-!
Shallow embedding of the auth/RBAC cloud function core: permission checking
(`src/middleware/auth.ts`), login throttling and security utilities
(`security.ts`), refresh-token session management and logout
(`authController.ts`), the fixed-window rate limiter
(`src/middleware/errorHandler.ts`), generic document deletion
(`src/utils/database.ts`), and role/permission administration
(`src/models/Role.ts`).  Stateful code is embedded as explicit
state-passing functions; fallible code returns `Except`.
-/

namespace CloudAuth

/-! ## Data model -/

/-- The `action` union type of `Permission["action"]`:
`"create" | "read" | "update" | "delete" | "manage"`. -/
inductive Action where
  | create
  | read
  | update
  | delete
  | manage
deriving DecidableEq

/-- A permission document: `{id, name, description, resource, action}`. -/
structure Permission where
  id : String
  name : String
  description : String
  resource : String
  action : Action
deriving DecidableEq

/-- A role document: `{id, name, description, permissions}` where
`permissions` is a list of permission IDs. -/
structure Role where
  id : String
  name : String
  description : String
  permissions : List String
deriving DecidableEq

/-- A role assignment (`userRoles` document): `{userId, roleIds}`. -/
structure RoleAssignment where
  userId : String
  roleIds : List String
deriving DecidableEq

/-! ## Permission check (`hasPermission` in `src/middleware/auth.ts`) -/

/-- The predicate tested by `req.permissions.some(...)` inside
`hasPermission`: exact `(resource, action)` match, same-resource `manage`,
or global `("*", manage)`. -/
def permMatches (resource : String) (action : Action) (perm : Permission) : Bool :=
  decide ((perm.resource = resource ∧ perm.action = action) ∨
          (perm.resource = resource ∧ perm.action = Action.manage) ∨
          (perm.resource = "*" ∧ perm.action = Action.manage))

/-- Outcome of an Express middleware in this embedding: call `next()` with
no error, or call `next(err)` with a Forbidden error code. -/
inductive MwOutcome where
  | proceed
  | forbidden (code : String)
deriving DecidableEq

/-- The `hasPermission(resource, action)` middleware body: `req.permissions`
is `none` when permissions were never loaded (Forbidden
`PERMISSIONS_NOT_LOADED`); otherwise the request proceeds iff some loaded
permission satisfies `permMatches`, else Forbidden
`INSUFFICIENT_PERMISSIONS`. -/
def hasPermission (resource : String) (action : Action)
    (permissions : Option (List Permission)) : MwOutcome :=
  match permissions with
  | none => .forbidden "PERMISSIONS_NOT_LOADED"
  | some perms =>
    if perms.any (permMatches resource action) then .proceed
    else .forbidden "INSUFFICIENT_PERMISSIONS"

/-! ## Throttle Engine (`calculateLoginThrottle` in `security.ts`) -/

/-- `MAX_FAILED_ATTEMPTS = 5`. -/
def MAX_FAILED_ATTEMPTS : Nat := 5

/-- `BASE_DELAY_MS = 1000`. -/
def BASE_DELAY_MS : Nat := 1000

/-- `MAX_DELAY_MS = 10 * 60 * 1000` (10 minutes). -/
def MAX_DELAY_MS : Nat := 10 * 60 * 1000

/-- `ATTEMPT_WINDOW_MS = 60 * 60 * 1000` (1 hour). -/
def ATTEMPT_WINDOW_MS : Int := 60 * 60 * 1000

/-- A `loginThrottling` counter document: `{count, lastAttempt}`. -/
structure ThrottleData where
  count : Nat
  lastAttempt : Int
deriving DecidableEq

/-- A credential-store failure (the `catch` path of a store call). -/
inductive StoreError where
  | unavailable
deriving DecidableEq

/-- Side effect of the throttle computation on the stored counter record:
either left in place or deleted (`throttlingRef.delete()`). -/
inductive ThrottleEffect where
  | keep
  | deleteRecord
deriving DecidableEq

/-- `calculateLoginThrottle(email, ip)`; the store read for the
`email:ip` counter document is passed in as `readResult` (`.error` when
the read throws, `.ok none` when the document does not exist).  Returns
the delay in milliseconds together with the effect on the stored record. -/
def calculateLoginThrottle (readResult : Except StoreError (Option ThrottleData))
    (now : Int) : Nat × ThrottleEffect :=
  match readResult with
  | .error _ => (BASE_DELAY_MS * 8, .keep)
  | .ok none => (0, .keep)
  | .ok (some data) =>
    if now - data.lastAttempt > ATTEMPT_WINDOW_MS then
      (0, .deleteRecord)
    else if data.count < MAX_FAILED_ATTEMPTS then
      (0, .keep)
    else
      let exponent := Nat.min (data.count - MAX_FAILED_ATTEMPTS) 10
      (Nat.min (BASE_DELAY_MS * 2 ^ exponent) MAX_DELAY_MS, .keep)

/-! ## Credential store (`deleteDocument` in `src/utils/database.ts`) -/

/-- Database error kinds surfaced by `deleteDocument`. -/
inductive DbError where
  | notFound
deriving DecidableEq

/-- `deleteDocument(collection, id, errorIfNotFound)`: the store is the
list of `(collection, id)` keys of existing documents.  If the document
does not exist and `errorIfNotFound` is set, a `NotFound` error is
raised; otherwise `docRef.delete()` removes the key (deleting an absent
document is a no-op). -/
def deleteDocument (store : List (String × String)) (collection id : String)
    (errorIfNotFound : Bool) : Except DbError (List (String × String)) :=
  let docExists : Bool := decide ((collection, id) ∈ store)
  if !docExists && errorIfNotFound then
    .error .notFound
  else
    .ok (store.filter (fun k => !(decide (k = (collection, id)))))

/-- `deleteDocument` called without the third argument: the source default
for `errorIfNotFound` is `true`. -/
def deleteDocumentDefault (store : List (String × String))
    (collection id : String) : Except DbError (List (String × String)) :=
  deleteDocument store collection id true

/-! ## Role administration (`RoleModel.addPermissionsToRole`) -/

/-- Error kind of the `addPermissionsToRole` transaction. -/
inductive RoleOpError where
  | roleNotFound
deriving DecidableEq

/-- `RoleModel.addPermissionsToRole(roleId, permissionIds)`: `roleRead` is
the transactional read of the role document (`none` when absent, which
raises `ROLE_NOT_FOUND`).  IDs already present are filtered out; the role
is written back with the combined list only when at least one new ID
remains.  The returned `Bool` records whether `transaction.update` was
invoked. -/
def addPermissionsToRole (roleRead : Option Role) (permissionIds : List String) :
    Except RoleOpError (Role × Bool) :=
  match roleRead with
  | none => .error .roleNotFound
  | some role =>
    let newPermissions :=
      permissionIds.filter (fun pid => !(decide (pid ∈ role.permissions)))
    if newPermissions.length > 0 then
      .ok ({ role with permissions := role.permissions ++ newPermissions }, true)
    else
      .ok (role, false)

/-! ## Session manager (`refreshToken` / `logout` in `authController.ts`) -/

/-- A `userRefreshTokens` document, as written at login:
`{token, userId, expires, createdAt, clientIp, userAgent, lastUsed}`. -/
structure TokenRecord where
  token : String
  userId : String
  expires : Int
  createdAt : Int
  clientIp : String
  userAgent : String
  lastUsed : Int
deriving DecidableEq

/-- Error codes thrown by `refreshToken`. -/
inductive AuthError where
  | missingRefreshToken
  | invalidRefreshToken
  | refreshTokenExpired
deriving DecidableEq

/-- The 200 body of a successful `refreshToken` call. -/
structure RefreshSuccess where
  accessToken : String
  expiresIn : Nat
  tokenType : String
  userId : String
deriving DecidableEq

/-- Update in place the single document returned by a `limit(1)` query:
the first record satisfying `p`. -/
def updateFirst (p : TokenRecord → Bool) (f : TokenRecord → TokenRecord) :
    List TokenRecord → List TokenRecord
  | [] => []
  | r :: rs => if p r then f r :: rs else r :: updateFirst p f rs

/-- Delete the single document returned by a `limit(1)` query: the first
record satisfying `p`. -/
def eraseFirstRec (p : TokenRecord → Bool) :
    List TokenRecord → List TokenRecord
  | [] => []
  | r :: rs => if p r then rs else r :: eraseFirstRec p rs

/-- The `refreshToken` controller.  `mint` is the Identity Provider's
`createCustomToken`; the store is the list of `userRefreshTokens`
documents.  A falsy (absent or empty) token is rejected up front as
`MISSING_REFRESH_TOKEN`; otherwise the token is looked up by exact value
(`where("token", "==", tok).limit(1)`), failing `INVALID_REFRESH_TOKEN`
when absent, deleting the record and failing `REFRESH_TOKEN_EXPIRED` when
past `expires`, and otherwise minting a new access token for the record's
`userId` and bumping `lastUsed`. -/
def refreshTokenOp (mint : String → String) (store : List TokenRecord)
    (refreshTok : String) (now : Int) :
    Except AuthError RefreshSuccess × List TokenRecord :=
  if refreshTok = "" then
    (.error .missingRefreshToken, store)
  else
    match store.find? (fun r => decide (r.token = refreshTok)) with
    | none => (.error .invalidRefreshToken, store)
    | some r =>
      if r.expires < now then
        (.error .refreshTokenExpired,
         eraseFirstRec (fun x => decide (x.token = refreshTok)) store)
      else
        (.ok ⟨mint r.userId, 3600, "Bearer", r.userId⟩,
         updateFirst (fun x => decide (x.token = refreshTok))
           (fun x => { x with lastUsed := now }) store)

/-- JS truthiness of `req.body.refreshToken`: absent or empty string are
both falsy. -/
def tokenProvided : Option String → Bool
  | some t => !(decide (t = ""))
  | none => false

/-- The user's most recently used record
(`orderBy("lastUsed", "desc").limit(1)`), keeping the earliest-stored
record among ties. -/
def mostRecentlyUsed (store : List TokenRecord) (userId : String) :
    Option TokenRecord :=
  (store.filter (fun r => decide (r.userId = userId))).foldl
    (fun acc r =>
      match acc with
      | none => some r
      | some b => if r.lastUsed > b.lastUsed then some r else some b)
    none

/-- The `logout` controller's effect on the `userRefreshTokens` store.
With a (truthy) specific token: delete only that record, scoped to the
caller's `userId`.  Else with `allDevices`: delete every record of the
user in one batch.  Else: delete the most recently used record. -/
def logoutOp (store : List TokenRecord) (userId : String)
    (refreshTok : Option String) (allDevices : Bool) : List TokenRecord :=
  if tokenProvided refreshTok then
    match refreshTok with
    | some tok =>
      eraseFirstRec
        (fun r => decide (r.token = tok) && decide (r.userId = userId)) store
    | none => store
  else if allDevices then
    store.filter (fun r => !(decide (r.userId = userId)))
  else
    match mostRecentlyUsed store userId with
    | none => store
    | some r => eraseFirstRec (fun x => decide (x = r)) store

/-! ## Permission loading (`loadPermissions` in `src/middleware/auth.ts`) -/

/-- `Array.from(new Set(xs))`: deduplication preserving first occurrences. -/
def dedupFirst : List String → List String
  | [] => []
  | x :: xs => x :: (dedupFirst xs).filter (fun y => !(decide (y = x)))

/-- Error kind of the permission-loading middleware. -/
inductive MwError where
  | permissionLoadingError
deriving DecidableEq

/-- The deduplicated union of permission IDs over the user's valid roles:
`Array.from(new Set(validRoles.flatMap(role => role.permissions)))`, where
`validRoles` keeps only the assigned role IDs that resolve to a role
(`role !== null`). -/
def collectPermissionIds (roleIds : List String)
    (roleStore : String → Option Role) : List String :=
  dedupFirst ((roleIds.filterMap roleStore).flatMap (fun role => role.permissions))

/-- The `loadPermissions` middleware body, for an authenticated user:
`assignmentRead` is the `User.getUserRoles` result (`.error` when the
store read throws, `.ok none` when the user has no role-assignment
document).  An absent assignment yields the empty permission list;
otherwise each role ID is resolved via `roleStore` (missing roles
silently dropped), the permission IDs of the valid roles are unioned and
deduplicated, and resolved via `permStore` (missing permissions
dropped by `getPermissionsByIds`). -/
def loadPermissions (assignmentRead : Except StoreError (Option RoleAssignment))
    (roleStore : String → Option Role)
    (permStore : String → Option Permission) :
    Except MwError (List Permission) :=
  match assignmentRead with
  | .error _ => .error .permissionLoadingError
  | .ok none => .ok []
  | .ok (some assignment) =>
    .ok ((collectPermissionIds assignment.roleIds roleStore).filterMap permStore)

/-! ## Rate limiter (`rateLimiter` in `errorHandler.ts`) -/

/-- One entry of `ipRequestCounts`: `{count, resetTime}`. -/
structure RLTracker where
  count : Nat
  resetTime : Int
deriving DecidableEq

/-- The `rateLimiter(options)` configuration: `windowMs` and
`maxRequests`. -/
structure RLOptions where
  windowMs : Int
  maxRequests : Nat
deriving DecidableEq

/-- The `X-RateLimit-Limit` / `X-RateLimit-Remaining` / `X-RateLimit-Reset`
response headers. -/
structure RLHeaders where
  limit : Nat
  remaining : Nat
  reset : Int
deriving DecidableEq

/-- Outcome of one request through the rate limiter: `next()` with
headers set, or `next(TooManyRequestsError)` with `retryAfter` and
headers set. -/
inductive RLOutcome where
  | pass (headers : RLHeaders)
  | reject (retryAfter : Int) (headers : RLHeaders)
deriving DecidableEq

/-- The headers carried by either outcome. -/
def headersOf : RLOutcome → RLHeaders
  | .pass h => h
  | .reject _ h => h

/-- `Math.ceil(x / d)` on integer inputs, for `d > 0`. -/
def ceilDiv (x d : Int) : Int := Int.ediv (x + d - 1) d

/-- Whether the outcome called plain `next()`. -/
def isPass : RLOutcome → Bool
  | .pass _ => true
  | .reject _ _ => false

/-- One request through the rate limiter middleware for a fixed key:
`entry` is `ipRequestCounts[key]` (`none` when absent, replaced by a
fresh `{count: 0, resetTime: now + windowMs}` tracker).  An expired
window (`now > resetTime`) resets the tracker in place.  At or above
`maxRequests` the request is rejected with
`retryAfter = ceil((resetTime - now)/1000)` and headers; a fresh tracker
is only stored on the increment path, while an existing entry keeps any
in-place reset.  Otherwise the count is incremented, stored, and headers
are set.  (The optional `skipSuccessfulRequests` decrement mode is not
modelled; it defaults to off.) -/
def rateLimiterStep (opts : RLOptions) (entry : Option RLTracker) (now : Int) :
    RLOutcome × Option RLTracker :=
  let tracker0 := entry.getD ⟨0, now + opts.windowMs⟩
  let tracker := if now > tracker0.resetTime then
      (⟨0, now + opts.windowMs⟩ : RLTracker)
    else tracker0
  if opts.maxRequests ≤ tracker.count then
    (.reject (ceilDiv (tracker.resetTime - now) 1000)
      ⟨opts.maxRequests, 0, ceilDiv tracker.resetTime 1000⟩,
     if entry.isSome then some tracker else none)
  else
    (.pass ⟨opts.maxRequests, opts.maxRequests - (tracker.count + 1),
        ceilDiv tracker.resetTime 1000⟩,
     some ⟨tracker.count + 1, tracker.resetTime⟩)

/-- A sequence of requests at the given times through the rate limiter,
for one key, threading the stored tracker. -/
def rateLimiterRun (opts : RLOptions) (entry : Option RLTracker) :
    List Int → List RLOutcome × Option RLTracker
  | [] => ([], entry)
  | t :: ts =>
    let step := rateLimiterStep opts entry t
    let rest := rateLimiterRun opts step.2 ts
    (step.1 :: rest.1, rest.2)

end CloudAuth

namespace CloudAuth

/-! ## C1: permission-check correctness -/

/-- C1: the permission check authorizes `(r, a)` iff the set contains an
exact match, a same-resource `manage`, or a global `("*", manage)`
permission; otherwise it denies with a Forbidden error; the decision is
invariant under permutation of the permission list; and a single matching
permission suffices. -/
theorem hasPermission_correct (P : List Permission) (r : String) (a : Action) :
    (hasPermission r a (some P) = .proceed ↔
      ∃ p ∈ P, (p.resource = r ∧ p.action = a) ∨
        (p.resource = r ∧ p.action = Action.manage) ∨
        (p.resource = "*" ∧ p.action = Action.manage)) ∧
    ((¬ ∃ p ∈ P, (p.resource = r ∧ p.action = a) ∨
        (p.resource = r ∧ p.action = Action.manage) ∨
        (p.resource = "*" ∧ p.action = Action.manage)) →
      hasPermission r a (some P) = .forbidden "INSUFFICIENT_PERMISSIONS") ∧
    (∀ P' : List Permission, P.Perm P' →
      hasPermission r a (some P) = hasPermission r a (some P')) ∧
    (∀ p ∈ P, permMatches r a p = true → hasPermission r a (some P) = .proceed) := by
  have hchar : ∀ Q : List Permission,
      Q.any (permMatches r a) = true ↔
      ∃ p ∈ Q, (p.resource = r ∧ p.action = a) ∨
        (p.resource = r ∧ p.action = Action.manage) ∨
        (p.resource = "*" ∧ p.action = Action.manage) := by
    intro Q
    rw [List.any_eq_true]
    constructor
    · rintro ⟨p, hp, hm⟩
      exact ⟨p, hp, of_decide_eq_true hm⟩
    · rintro ⟨p, hp, hm⟩
      exact ⟨p, hp, decide_eq_true hm⟩
  have hdef : ∀ Q : List Permission,
      hasPermission r a (some Q) =
        if Q.any (permMatches r a) then MwOutcome.proceed
        else MwOutcome.forbidden "INSUFFICIENT_PERMISSIONS" := fun _ => rfl
  refine ⟨?_, ?_, ?_, ?_⟩
  · rw [← hchar, hdef]
    constructor
    · intro h
      by_contra hany
      simp only [Bool.not_eq_true] at hany
      rw [hany] at h
      simp at h
    · intro h
      rw [h]
      simp
  · intro h
    rw [← hchar] at h
    rw [hdef]
    simp only [Bool.not_eq_true] at h
    rw [h]
    simp
  · intro P' hperm
    rw [hdef, hdef]
    have : P.any (permMatches r a) = P'.any (permMatches r a) := by
      rw [Bool.eq_iff_iff, hchar P, hchar P']
      constructor
      · rintro ⟨p, hp, hm⟩
        exact ⟨p, hperm.mem_iff.mp hp, hm⟩
      · rintro ⟨p, hp, hm⟩
        exact ⟨p, hperm.mem_iff.mpr hp, hm⟩
    rw [this]
  · intro p hp hm
    rw [hdef]
    have : P.any (permMatches r a) = true := List.any_eq_true.mpr ⟨p, hp, hm⟩
    rw [this]
    simp

/-- Witness for C1: a singleton `("roles", manage)` permission set
authorizes `("roles", read)`, and a set with only `("users", read)` is
denied `("roles", read)` with `INSUFFICIENT_PERMISSIONS`. -/
theorem hasPermission_correct_witness :
    hasPermission "roles" Action.read
      (some [⟨"p1", "n", "d", "roles", Action.manage⟩]) = .proceed ∧
    hasPermission "roles" Action.read
      (some [⟨"p2", "n", "d", "users", Action.read⟩]) =
      .forbidden "INSUFFICIENT_PERMISSIONS" := by
  constructor
  · exact (hasPermission_correct [⟨"p1", "n", "d", "roles", Action.manage⟩]
      "roles" Action.read).1.mpr ⟨⟨"p1", "n", "d", "roles", Action.manage⟩,
        by simp, by simp⟩
  · exact (hasPermission_correct [⟨"p2", "n", "d", "users", Action.read⟩]
      "roles" Action.read).2.1 (by decide)

/-! ## C2, C3, C8: login throttle -/

/-- Unfolding equation for `calculateLoginThrottle` on a successfully read,
existing counter record. -/
theorem calculateLoginThrottle_ok_some (d : ThrottleData) (now : Int) :
    calculateLoginThrottle (.ok (some d)) now =
      if now - d.lastAttempt > ATTEMPT_WINDOW_MS then (0, .deleteRecord)
      else if d.count < MAX_FAILED_ATTEMPTS then (0, .keep)
      else (Nat.min (BASE_DELAY_MS * 2 ^ Nat.min (d.count - MAX_FAILED_ATTEMPTS) 10)
              MAX_DELAY_MS, .keep) := rfl

/-- C2: the throttle computation returns 0 with no counter record, returns
0 and deletes the record once the last attempt is more than the 1-hour
window ago, returns 0 below the failure threshold of 5, and otherwise
returns `min(1000 * 2^min(count - 5, 10), 600000)`. -/
theorem calculateLoginThrottle_cases (now : Int) :
    calculateLoginThrottle (.ok none) now = (0, .keep) ∧
    (∀ d : ThrottleData, now - d.lastAttempt > ATTEMPT_WINDOW_MS →
      calculateLoginThrottle (.ok (some d)) now = (0, .deleteRecord)) ∧
    (∀ d : ThrottleData, ¬ now - d.lastAttempt > ATTEMPT_WINDOW_MS →
      d.count < 5 →
      calculateLoginThrottle (.ok (some d)) now = (0, .keep)) ∧
    (∀ d : ThrottleData, ¬ now - d.lastAttempt > ATTEMPT_WINDOW_MS →
      ¬ d.count < 5 →
      calculateLoginThrottle (.ok (some d)) now =
        (Nat.min (1000 * 2 ^ Nat.min (d.count - 5) 10) 600000, .keep)) := by
  refine ⟨rfl, ?_, ?_, ?_⟩
  · intro d h
    rw [calculateLoginThrottle_ok_some, if_pos h]
  · intro d h1 h2
    rw [calculateLoginThrottle_ok_some, if_neg h1,
      if_pos (show d.count < MAX_FAILED_ATTEMPTS from h2)]
  · intro d h1 h2
    rw [calculateLoginThrottle_ok_some, if_neg h1,
      if_neg (show ¬ d.count < MAX_FAILED_ATTEMPTS from h2)]
    rfl

/-- Witness for C2: concrete evaluations of all four cases. -/
theorem calculateLoginThrottle_cases_witness :
    calculateLoginThrottle (.ok none) 0 = (0, .keep) ∧
    calculateLoginThrottle (.ok (some ⟨7, 0⟩)) 3600001 = (0, .deleteRecord) ∧
    calculateLoginThrottle (.ok (some ⟨3, 0⟩)) 5 = (0, .keep) ∧
    calculateLoginThrottle (.ok (some ⟨7, 0⟩)) 5 = (4000, .keep) := by
  refine ⟨(calculateLoginThrottle_cases 0).1, ?_, ?_, ?_⟩
  · exact (calculateLoginThrottle_cases 3600001).2.1 ⟨7, 0⟩ (by decide)
  · exact (calculateLoginThrottle_cases 5).2.2.1 ⟨3, 0⟩ (by decide) (by decide)
  · have h := (calculateLoginThrottle_cases 5).2.2.2 ⟨7, 0⟩ (by decide) (by decide)
    rw [h]
    decide

/-- C3 counterexample: for an in-window record at the failure threshold,
`count = 5` yields a delay of 1000 ms (exponent 0), not the claimed
2000 ms, and `count = 7` yields 4000 ms (exponent 2), not 8000 ms. -/
theorem throttle_count5_is_1000_not_2000 :
    (calculateLoginThrottle (.ok (some ⟨5, 0⟩)) 0).1 = 1000 ∧
    ¬ (calculateLoginThrottle (.ok (some ⟨5, 0⟩)) 0).1 = 2000 ∧
    (calculateLoginThrottle (.ok (some ⟨7, 0⟩)) 0).1 = 4000 ∧
    ¬ (calculateLoginThrottle (.ok (some ⟨7, 0⟩)) 0).1 = 8000 := by decide

/-- C3 (amended): with threshold 5 and base delay 1000 ms, a within-window
record yields 1000 ms (exponent 0) at `count = 5`, 4000 ms (exponent 2) at
`count = 7`, 512000 ms (exponent 9, below the cap) at `count = 14`, and is
capped at `maxDelay = 600000` ms once the exponent reaches 10
(`count ≥ 15`). -/
theorem throttle_concrete_delays (now : Int) (d : ThrottleData)
    (hwin : ¬ now - d.lastAttempt > ATTEMPT_WINDOW_MS) :
    (d.count = 5 → calculateLoginThrottle (.ok (some d)) now = (1000, .keep)) ∧
    (d.count = 7 → calculateLoginThrottle (.ok (some d)) now = (4000, .keep)) ∧
    (d.count = 14 → calculateLoginThrottle (.ok (some d)) now = (512000, .keep)) ∧
    (15 ≤ d.count → calculateLoginThrottle (.ok (some d)) now = (600000, .keep)) := by
  refine ⟨?_, ?_, ?_, ?_⟩
  · intro hc
    rw [calculateLoginThrottle_ok_some, if_neg hwin,
      if_neg (show ¬ d.count < MAX_FAILED_ATTEMPTS by
        simp only [MAX_FAILED_ATTEMPTS]; omega), hc]
    decide
  · intro hc
    rw [calculateLoginThrottle_ok_some, if_neg hwin,
      if_neg (show ¬ d.count < MAX_FAILED_ATTEMPTS by
        simp only [MAX_FAILED_ATTEMPTS]; omega), hc]
    decide
  · intro hc
    rw [calculateLoginThrottle_ok_some, if_neg hwin,
      if_neg (show ¬ d.count < MAX_FAILED_ATTEMPTS by
        simp only [MAX_FAILED_ATTEMPTS]; omega), hc]
    decide
  · intro hc
    rw [calculateLoginThrottle_ok_some, if_neg hwin,
      if_neg (show ¬ d.count < MAX_FAILED_ATTEMPTS by
        simp only [MAX_FAILED_ATTEMPTS]; omega)]
    have hexp : Nat.min (d.count - MAX_FAILED_ATTEMPTS) 10 = 10 :=
      Nat.min_eq_right (by simp only [MAX_FAILED_ATTEMPTS]; omega)
    rw [hexp]
    decide

/-- Witness for C3 (amended): concrete in-window records with counts 5, 7,
14 and 15. -/
theorem throttle_concrete_delays_witness :
    calculateLoginThrottle (.ok (some ⟨5, 0⟩)) 10 = (1000, .keep) ∧
    calculateLoginThrottle (.ok (some ⟨7, 0⟩)) 10 = (4000, .keep) ∧
    calculateLoginThrottle (.ok (some ⟨14, 0⟩)) 10 = (512000, .keep) ∧
    calculateLoginThrottle (.ok (some ⟨15, 0⟩)) 10 = (600000, .keep) :=
  ⟨(throttle_concrete_delays 10 ⟨5, 0⟩ (by decide)).1 rfl,
   (throttle_concrete_delays 10 ⟨7, 0⟩ (by decide)).2.1 rfl,
   (throttle_concrete_delays 10 ⟨14, 0⟩ (by decide)).2.2.1 rfl,
   (throttle_concrete_delays 10 ⟨15, 0⟩ (by decide)).2.2.2 (by decide)⟩

/-- C8: when the credential-store read fails, the throttle computation
swallows the error and returns the fixed moderate delay
`BASE_DELAY_MS * 8 = 8000` ms — positive (throttling is not disabled) and
below the 10-minute cap (logins are not blocked indefinitely). -/
theorem throttle_fail_open (e : StoreError) (now : Int) :
    calculateLoginThrottle (.error e) now = (BASE_DELAY_MS * 8, .keep) ∧
    (calculateLoginThrottle (.error e) now).1 = 8000 ∧
    0 < (calculateLoginThrottle (.error e) now).1 ∧
    (calculateLoginThrottle (.error e) now).1 < MAX_DELAY_MS := by
  refine ⟨rfl, rfl, ?_, ?_⟩
  · show 0 < 8000
    decide
  · show 8000 < MAX_DELAY_MS
    decide

/-! ## C9: idempotent document deletion -/

/-- C9: deleting a non-existent document succeeds silently and leaves the
store unchanged when `errorIfNotFound = false`, raises `NotFound` when
`errorIfNotFound = true` (the default); an existing document is deleted in
both modes, leaving all other documents in place. -/
theorem deleteDocument_spec (store : List (String × String)) (c i : String) :
    ((c, i) ∉ store → deleteDocument store c i false = .ok store) ∧
    ((c, i) ∉ store → deleteDocument store c i true = .error .notFound) ∧
    ((c, i) ∈ store → ∀ b : Bool, ∃ store',
      deleteDocument store c i b = .ok store' ∧
      (c, i) ∉ store' ∧
      ∀ k : String × String, k ≠ (c, i) → (k ∈ store' ↔ k ∈ store)) ∧
    deleteDocumentDefault store c i = deleteDocument store c i true := by
  refine ⟨?_, ?_, ?_, rfl⟩
  · intro h
    have hfilter : store.filter (fun k => !(decide (k = (c, i)))) = store := by
      apply List.filter_eq_self.mpr
      intro a ha
      simp only [Bool.not_eq_true', decide_eq_false_iff_not]
      intro heq
      exact h (heq ▸ ha)
    simp [deleteDocument, h, hfilter]
  · intro h
    simp [deleteDocument, h]
  · intro h b
    refine ⟨store.filter (fun k => !(decide (k = (c, i)))), ?_, ?_, ?_⟩
    · simp [deleteDocument, h]
    · simp
    · intro k hk
      simp [List.mem_filter, hk]

/-- Witness for C9: a one-document store. -/
theorem deleteDocument_spec_witness :
    deleteDocument [] "userRefreshTokens" "t1" false = .ok [] ∧
    deleteDocument [] "userRefreshTokens" "t1" true = .error .notFound ∧
    deleteDocument [("userRefreshTokens", "t1"), ("roles", "r1")]
      "userRefreshTokens" "t1" true = .ok [("roles", "r1")] := by
  refine ⟨(deleteDocument_spec [] "userRefreshTokens" "t1").1 (by decide),
    (deleteDocument_spec [] "userRefreshTokens" "t1").2.1 (by decide), ?_⟩
  obtain ⟨store', heq, hni, hmem⟩ :=
    (deleteDocument_spec [("userRefreshTokens", "t1"), ("roles", "r1")]
      "userRefreshTokens" "t1").2.2.1 (by decide) true
  have hval : deleteDocument [("userRefreshTokens", "t1"), ("roles", "r1")]
      "userRefreshTokens" "t1" true = .ok [("roles", "r1")] := rfl
  exact hval

/-! ## C10: adding permissions to a role -/

/-- C10 counterexample: the claim fails for an input list that itself
contains a duplicate: adding `["x", "x"]` to a role with (duplicate-free)
permission list `[]` yields the permission list `["x", "x"]`, which is not
duplicate-free. -/
theorem addPermissionsToRole_dup_input :
    addPermissionsToRole (some ⟨"r1", "admin", "", []⟩) ["x", "x"] =
      .ok (⟨"r1", "admin", "", ["x", "x"]⟩, true) ∧
    (⟨"r1", "admin", "", []⟩ : Role).permissions.Nodup ∧
    ¬ (["x", "x"] : List String).Nodup :=
  ⟨rfl, by decide, by decide⟩

/-- C10 (amended): for an existing role with duplicate-free permission
list and a duplicate-free list of IDs to add, `addPermissionsToRole`
appends exactly the IDs not already present (preserving the existing
order), the result is duplicate-free, and when every requested ID is
already present the role is returned unwritten (`update` not invoked). -/
theorem addPermissionsToRole_spec (role : Role) (ids : List String)
    (hrole : role.permissions.Nodup) (hids : ids.Nodup) :
    addPermissionsToRole (some role) ids =
      .ok ({ role with permissions := role.permissions ++
              ids.filter (fun pid => !(decide (pid ∈ role.permissions))) },
           !(ids.filter (fun pid => !(decide (pid ∈ role.permissions)))).isEmpty) ∧
    (role.permissions ++
      ids.filter (fun pid => !(decide (pid ∈ role.permissions)))).Nodup ∧
    (∀ x, x ∈ role.permissions ++
        ids.filter (fun pid => !(decide (pid ∈ role.permissions))) ↔
      x ∈ role.permissions ∨ x ∈ ids) ∧
    (∀ pid ∈ ids.filter (fun pid => !(decide (pid ∈ role.permissions))),
      pid ∉ role.permissions ∧ pid ∈ ids) ∧
    ((∀ pid ∈ ids, pid ∈ role.permissions) →
      addPermissionsToRole (some role) ids = .ok (role, false)) := by
  refine ⟨?_, ?_, ?_, ?_, ?_⟩
  · by_cases hf : ids.filter (fun pid => !(decide (pid ∈ role.permissions))) = []
    · simp [addPermissionsToRole, hf]
    · have hlen : 0 < (ids.filter
          (fun pid => !(decide (pid ∈ role.permissions)))).length :=
        List.length_pos.mpr hf
      simp [addPermissionsToRole, hlen, List.isEmpty_iff, hf]
  · refine List.Nodup.append hrole (List.Nodup.filter _ hids) ?_
    intro a ha hafilter
    have := (List.mem_filter.mp hafilter).2
    simp only [Bool.not_eq_true', decide_eq_false_iff_not] at this
    exact this ha
  · intro x
    simp only [List.mem_append, List.mem_filter, Bool.not_eq_true',
      decide_eq_false_iff_not]
    constructor
    · rintro (hx | ⟨hx, -⟩)
      · exact Or.inl hx
      · exact Or.inr hx
    · rintro (hx | hx)
      · exact Or.inl hx
      · by_cases hmem : x ∈ role.permissions
        · exact Or.inl hmem
        · exact Or.inr ⟨hx, hmem⟩
  · intro pid hpid
    have := List.mem_filter.mp hpid
    refine ⟨?_, this.1⟩
    have h2 := this.2
    simp only [Bool.not_eq_true', decide_eq_false_iff_not] at h2
    exact h2
  · intro hall
    have hf : ids.filter (fun pid => !(decide (pid ∈ role.permissions))) = [] := by
      apply List.filter_eq_nil_iff.mpr
      intro a ha
      simp only [Bool.not_eq_true', decide_eq_false_iff_not, not_not]
      exact hall a ha
    simp [addPermissionsToRole, hf]

/-- Witness for C10 (amended): adding `["a", "b"]` to a role already
holding `["a"]` appends only `"b"`. -/
theorem addPermissionsToRole_spec_witness :
    addPermissionsToRole (some ⟨"r1", "n", "d", ["a"]⟩) ["a", "b"] =
      .ok (⟨"r1", "n", "d", ["a", "b"]⟩, true) := by
  have h := (addPermissionsToRole_spec ⟨"r1", "n", "d", ["a"]⟩ ["a", "b"]
    (by decide) (by decide)).1
  exact h

/-! ## C4, C7: refresh-token lifecycle and logout -/

/-- Deleting the record found by a `limit(1)` query shrinks the store by
exactly one document. -/
theorem eraseFirstRec_length (p : TokenRecord → Bool) :
    ∀ l : List TokenRecord, ∀ r, l.find? p = some r →
      (eraseFirstRec p l).length + 1 = l.length := by
  intro l
  induction l with
  | nil => intro r h; simp at h
  | cons a l ih =>
    intro r h
    by_cases hp : p a = true
    · simp [eraseFirstRec, hp]
    · simp only [List.find?_cons, hp] at h
      have hl := ih r h
      simp [eraseFirstRec, hp]
      omega

/-- `eraseFirstRec` only removes documents, never adds any. -/
theorem eraseFirstRec_subset (p : TokenRecord → Bool) :
    ∀ l : List TokenRecord, ∀ x ∈ eraseFirstRec p l, x ∈ l := by
  intro l
  induction l with
  | nil => intro x hx; simp [eraseFirstRec] at hx
  | cons a l ih =>
    intro x hx
    by_cases hp : p a = true
    · simp only [eraseFirstRec, hp, if_true] at hx
      exact List.mem_cons_of_mem a hx
    · simp [eraseFirstRec, hp, List.mem_cons] at hx
      rcases hx with hxa | hx
      · rw [hxa]
        exact List.mem_cons_self a l
      · exact List.mem_cons_of_mem a (ih x hx)

/-- An update that preserves the `token` field leaves the list of stored
token values unchanged. -/
theorem updateFirst_map_token (p : TokenRecord → Bool)
    (f : TokenRecord → TokenRecord) (hf : ∀ x, (f x).token = x.token) :
    ∀ l : List TokenRecord,
      (updateFirst p f l).map (fun x => x.token) = l.map (fun x => x.token) := by
  intro l
  induction l with
  | nil => rfl
  | cons a l ih =>
    by_cases hp : p a = true
    · simp [updateFirst, hp, hf]
    · simp [updateFirst, hp, ih]

/-- After `updateFirst`, the document found by the same query is the
updated image of the document found before. -/
theorem updateFirst_find (p : TokenRecord → Bool)
    (f : TokenRecord → TokenRecord) (hf : ∀ x, p x = true → p (f x) = true) :
    ∀ l : List TokenRecord, ∀ r, l.find? p = some r →
      (updateFirst p f l).find? p = some (f r) := by
  intro l
  induction l with
  | nil => intro r h; simp at h
  | cons a l ih =>
    intro r h
    by_cases hp : p a = true
    · simp only [List.find?_cons, hp, Option.some.injEq] at h
      subst h
      simp [updateFirst, hp, List.find?_cons, hf a hp]
    · simp only [List.find?_cons, hp] at h
      simp [updateFirst, hp, List.find?_cons]
      exact ih r h

/-- C4 counterexample: presenting the empty token when no stored record
has that value fails with `MISSING_REFRESH_TOKEN`, not the claimed
`INVALID_REFRESH_TOKEN`. -/
theorem refreshToken_empty_token_counterexample :
    refreshTokenOp (fun u => u) [] "" 0 = (.error .missingRefreshToken, []) ∧
    (Except.error AuthError.missingRefreshToken :
        Except AuthError RefreshSuccess) ≠ .error .invalidRefreshToken := by
  refine ⟨rfl, ?_⟩
  simp

/-- C4 (amended): for every refresh call presenting a nonempty token: no
matching stored record fails `INVALID_REFRESH_TOKEN` with the store
unchanged; a matching record past expiry is deleted (one document fewer,
nothing added) and fails `REFRESH_TOKEN_EXPIRED`; an unexpired matching
record yields an access token minted for the record's `userId` together
with that `userId`, and the store is rewritten with only that record's
`lastUsed` set to the current time — every stored token value is
unchanged (no rotation) and the presented token still resolves to the
record.  (An absent or empty presented token instead fails
`MISSING_REFRESH_TOKEN`.) -/
theorem refreshToken_spec (mint : String → String) (store : List TokenRecord)
    (tok : String) (now : Int) (htok : ¬ tok = "") :
    ((∀ r ∈ store, r.token ≠ tok) →
      refreshTokenOp mint store tok now = (.error .invalidRefreshToken, store)) ∧
    (∀ r, store.find? (fun x => decide (x.token = tok)) = some r →
      r.expires < now →
      refreshTokenOp mint store tok now =
        (.error .refreshTokenExpired,
          eraseFirstRec (fun x => decide (x.token = tok)) store) ∧
      (refreshTokenOp mint store tok now).2.length + 1 = store.length ∧
      ∀ x ∈ (refreshTokenOp mint store tok now).2, x ∈ store) ∧
    (∀ r, store.find? (fun x => decide (x.token = tok)) = some r →
      ¬ r.expires < now →
      (refreshTokenOp mint store tok now).1 =
        .ok ⟨mint r.userId, 3600, "Bearer", r.userId⟩ ∧
      (refreshTokenOp mint store tok now).2 =
        updateFirst (fun x => decide (x.token = tok))
          (fun x => { x with lastUsed := now }) store ∧
      (refreshTokenOp mint store tok now).2.map (fun x => x.token) =
        store.map (fun x => x.token) ∧
      (refreshTokenOp mint store tok now).2.find?
          (fun x => decide (x.token = tok)) =
        some { r with lastUsed := now }) := by
  refine ⟨?_, ?_, ?_⟩
  · intro hall
    have hnone : store.find? (fun x => decide (x.token = tok)) = none :=
      List.find?_eq_none.mpr (fun x hx => by simpa using hall x hx)
    simp [refreshTokenOp, htok, hnone]
  · intro r hfind hexp
    have h1 : refreshTokenOp mint store tok now =
        (.error .refreshTokenExpired,
          eraseFirstRec (fun x => decide (x.token = tok)) store) := by
      simp [refreshTokenOp, htok, hfind, hexp]
    refine ⟨h1, ?_, ?_⟩
    · rw [h1]
      exact eraseFirstRec_length _ store r hfind
    · rw [h1]
      exact eraseFirstRec_subset _ store
  · intro r hfind hexp
    have h1 : refreshTokenOp mint store tok now =
        (.ok ⟨mint r.userId, 3600, "Bearer", r.userId⟩,
          updateFirst (fun x => decide (x.token = tok))
            (fun x => { x with lastUsed := now }) store) := by
      simp [refreshTokenOp, htok, hfind, hexp]
    rw [h1]
    refine ⟨rfl, rfl, ?_, ?_⟩
    · exact updateFirst_map_token (fun x => decide (x.token = tok))
        (fun x => { x with lastUsed := now }) (fun x => rfl) store
    · exact updateFirst_find (fun x => decide (x.token = tok))
        (fun x => { x with lastUsed := now }) (fun x hx => hx) store r hfind

/-- Witness for C4 (amended): a one-record store exercised with an unknown
token, an expired token, and a live token. -/
theorem refreshToken_spec_witness :
    refreshTokenOp (fun u => u) [⟨"tokA", "alice", 100, 0, "ip", "ua", 0⟩]
      "nope" 0 = (.error .invalidRefreshToken,
        [⟨"tokA", "alice", 100, 0, "ip", "ua", 0⟩]) ∧
    refreshTokenOp (fun u => u) [⟨"tokA", "alice", 100, 0, "ip", "ua", 0⟩]
      "tokA" 200 = (.error .refreshTokenExpired, []) ∧
    (refreshTokenOp (fun u => u) [⟨"tokA", "alice", 100, 0, "ip", "ua", 0⟩]
      "tokA" 50).1 = .ok ⟨"alice", 3600, "Bearer", "alice"⟩ := by
  refine ⟨?_, ?_, ?_⟩
  · exact (refreshToken_spec (fun u => u)
      [⟨"tokA", "alice", 100, 0, "ip", "ua", 0⟩] "nope" 0 (by decide)).1
      (by decide)
  · exact ((refreshToken_spec (fun u => u)
      [⟨"tokA", "alice", 100, 0, "ip", "ua", 0⟩] "tokA" 200 (by decide)).2.1
      ⟨"tokA", "alice", 100, 0, "ip", "ua", 0⟩ rfl (by decide)).1
  · exact ((refreshToken_spec (fun u => u)
      [⟨"tokA", "alice", 100, 0, "ip", "ua", 0⟩] "tokA" 50 (by decide)).2.2
      ⟨"tokA", "alice", 100, 0, "ip", "ua", 0⟩ rfl (by decide)).1

/-- Filtering out one user's records preserves the multiplicity of every
record belonging to any other user. -/
theorem countP_filter_other_user (u : String) (r : TokenRecord)
    (hru : r.userId ≠ u) :
    ∀ l : List TokenRecord,
      (l.filter (fun x => !(decide (x.userId = u)))).countP
          (fun x => decide (x = r)) =
        l.countP (fun x => decide (x = r)) := by
  intro l
  induction l with
  | nil => rfl
  | cons a l ih =>
    by_cases ha : a.userId = u
    · have hane : ¬ a = r := fun h => hru (h ▸ ha)
      simp [List.filter_cons, List.countP_cons, ha, hane, ih]
    · simp [List.filter_cons, List.countP_cons, ha, ih]

/-- C7: `logout` with `allDevices = true` (and no specific token) removes
every refresh-token record of the caller, removes nothing else — records
of other users are preserved with their exact multiplicity — and adds
nothing. -/
theorem logout_allDevices_spec (store : List TokenRecord) (u : String) :
    (∀ r ∈ logoutOp store u none true, r.userId ≠ u) ∧
    (∀ r ∈ logoutOp store u none true, r ∈ store) ∧
    (∀ r : TokenRecord, r.userId ≠ u →
      (logoutOp store u none true).countP (fun x => decide (x = r)) =
        store.countP (fun x => decide (x = r))) := by
  have hdef : logoutOp store u none true =
      store.filter (fun r => !(decide (r.userId = u))) := rfl
  rw [hdef]
  refine ⟨?_, ?_, ?_⟩
  · intro r hr
    have h := (List.mem_filter.mp hr).2
    simpa using h
  · intro r hr
    exact (List.mem_filter.mp hr).1
  · intro r hru
    exact countP_filter_other_user u r hru store

/-- Witness for C7: logging Alice out of all devices in a two-user store
preserves Bob's record with its multiplicity. -/
theorem logout_allDevices_spec_witness :
    (logoutOp [⟨"t1", "alice", 100, 0, "ip", "ua", 0⟩,
        ⟨"t2", "bob", 100, 0, "ip", "ua", 0⟩] "alice" none true).countP
      (fun x => decide (x = ⟨"t2", "bob", 100, 0, "ip", "ua", 0⟩)) =
    ([⟨"t1", "alice", 100, 0, "ip", "ua", 0⟩,
        ⟨"t2", "bob", 100, 0, "ip", "ua", 0⟩] : List TokenRecord).countP
      (fun x => decide (x = ⟨"t2", "bob", 100, 0, "ip", "ua", 0⟩)) :=
  (logout_allDevices_spec [⟨"t1", "alice", 100, 0, "ip", "ua", 0⟩,
    ⟨"t2", "bob", 100, 0, "ip", "ua", 0⟩] "alice").2.2
    ⟨"t2", "bob", 100, 0, "ip", "ua", 0⟩ (by decide)

/-! ## C6: permission loading -/

/-- Membership survives first-occurrence deduplication. -/
theorem mem_dedupFirst (x : String) :
    ∀ l : List String, x ∈ dedupFirst l ↔ x ∈ l := by
  intro l
  induction l with
  | nil => simp [dedupFirst]
  | cons a l ih =>
    simp only [dedupFirst, List.mem_cons, List.mem_filter]
    constructor
    · rintro (h | ⟨hx, -⟩)
      · exact Or.inl h
      · exact Or.inr (ih.mp hx)
    · rintro (h | hx)
      · exact Or.inl h
      · by_cases hxa : x = a
        · exact Or.inl hxa
        · refine Or.inr ⟨ih.mpr hx, ?_⟩
          simpa using hxa

/-- First-occurrence deduplication yields a duplicate-free list. -/
theorem nodup_dedupFirst : ∀ l : List String, (dedupFirst l).Nodup := by
  intro l
  induction l with
  | nil => simp [dedupFirst]
  | cons a l ih =>
    simp only [dedupFirst]
    rw [List.nodup_cons]
    refine ⟨?_, List.Nodup.filter _ ih⟩
    intro hmem
    have h := (List.mem_filter.mp hmem).2
    simp at h

/-- C6: an absent role assignment yields the empty permission set (not an
error); an assigned role ID resolving to no role is silently skipped; and
the result consists of exactly the permission objects resolved from the
deduplicated union of the permission IDs of the valid roles. -/
theorem loadPermissions_spec (roleStore : String → Option Role)
    (permStore : String → Option Permission) :
    loadPermissions (.ok none) roleStore permStore = .ok [] ∧
    (∀ u badId ids, roleStore badId = none →
      loadPermissions (.ok (some ⟨u, badId :: ids⟩)) roleStore permStore =
        loadPermissions (.ok (some ⟨u, ids⟩)) roleStore permStore) ∧
    (∀ ids, (collectPermissionIds ids roleStore).Nodup) ∧
    (∀ u ids ps,
      loadPermissions (.ok (some ⟨u, ids⟩)) roleStore permStore = .ok ps →
      ∀ p : Permission, p ∈ ps ↔
        ∃ rid ∈ ids, ∃ role, roleStore rid = some role ∧
          ∃ pid ∈ role.permissions, permStore pid = some p) := by
  refine ⟨rfl, ?_, ?_, ?_⟩
  · intro u badId ids h
    simp [loadPermissions, collectPermissionIds, List.filterMap_cons, h]
  · intro ids
    exact nodup_dedupFirst _
  · intro u ids ps hps p
    simp only [loadPermissions, Except.ok.injEq] at hps
    subst hps
    simp only [List.mem_filterMap, collectPermissionIds, mem_dedupFirst,
      List.mem_flatMap, List.mem_filterMap]
    constructor
    · rintro ⟨pid, ⟨role, ⟨rid, hrid, hrole⟩, hpid⟩, hperm⟩
      exact ⟨rid, hrid, role, hrole, pid, hpid, hperm⟩
    · rintro ⟨rid, hrid, role, hrole, pid, hpid, hperm⟩
      exact ⟨pid, ⟨role, ⟨rid, hrid, hrole⟩, hpid⟩, hperm⟩

/-- Witness for C6: no assignment yields `[]`, and a dangling role ID is
skipped without changing the outcome. -/
theorem loadPermissions_spec_witness :
    loadPermissions (.ok none) (fun _ => none) (fun _ => none) = .ok [] ∧
    loadPermissions (.ok (some ⟨"u1", ["ghost", "r1"]⟩))
        (fun rid => if rid = "r1" then some ⟨"r1", "n", "d", ["p1"]⟩ else none)
        (fun pid => if pid = "p1" then
          some ⟨"p1", "n", "d", "users", Action.read⟩ else none) =
      loadPermissions (.ok (some ⟨"u1", ["r1"]⟩))
        (fun rid => if rid = "r1" then some ⟨"r1", "n", "d", ["p1"]⟩ else none)
        (fun pid => if pid = "p1" then
          some ⟨"p1", "n", "d", "users", Action.read⟩ else none) :=
  ⟨(loadPermissions_spec (fun _ => none) (fun _ => none)).1,
   (loadPermissions_spec
      (fun rid => if rid = "r1" then some ⟨"r1", "n", "d", ["p1"]⟩ else none)
      (fun pid => if pid = "p1" then
        some ⟨"p1", "n", "d", "users", Action.read⟩ else none)).2.1
     "u1" "ghost" ["r1"] rfl⟩

/-! ## C5: fixed-window rate limiter -/

/-- Within the window, below the limit: the request passes and the count
increments. -/
theorem rateLimiterStep_some_pass (opts : RLOptions) (c : Nat) (R now : Int)
    (hwin : ¬ now > R) (hc : c < opts.maxRequests) :
    rateLimiterStep opts (some ⟨c, R⟩) now =
      (.pass ⟨opts.maxRequests, opts.maxRequests - (c + 1), ceilDiv R 1000⟩,
       some ⟨c + 1, R⟩) := by
  simp [rateLimiterStep, hwin, Nat.not_le.mpr hc]

/-- Within the window, at or above the limit: the request is rejected and
the stored tracker is unchanged. -/
theorem rateLimiterStep_some_reject (opts : RLOptions) (c : Nat) (R now : Int)
    (hwin : ¬ now > R) (hc : opts.maxRequests ≤ c) :
    rateLimiterStep opts (some ⟨c, R⟩) now =
      (.reject (ceilDiv (R - now) 1000)
        ⟨opts.maxRequests, 0, ceilDiv R 1000⟩,
       some ⟨c, R⟩) := by
  simp [rateLimiterStep, hwin, hc]

/-- Past the window with a positive limit: the counter is reset and the
request passes. -/
theorem rateLimiterStep_some_expired (opts : RLOptions) (c : Nat) (R now : Int)
    (hexp : now > R) (hm : 0 < opts.maxRequests) :
    rateLimiterStep opts (some ⟨c, R⟩) now =
      (.pass ⟨opts.maxRequests, opts.maxRequests - 1,
          ceilDiv (now + opts.windowMs) 1000⟩,
       some ⟨1, now + opts.windowMs⟩) := by
  simp [rateLimiterStep, hexp, Nat.not_le.mpr hm]

/-- Past the window with a zero limit: the reset tracker is kept and the
request is rejected. -/
theorem rateLimiterStep_some_expired_zero (opts : RLOptions) (c : Nat)
    (R now : Int) (hexp : now > R) (hm : opts.maxRequests = 0) :
    rateLimiterStep opts (some ⟨c, R⟩) now =
      (.reject (ceilDiv (now + opts.windowMs - now) 1000)
        ⟨opts.maxRequests, 0, ceilDiv (now + opts.windowMs) 1000⟩,
       some ⟨0, now + opts.windowMs⟩) := by
  simp [rateLimiterStep, hexp, hm]

/-- First request for a key with a positive limit: a fresh tracker is
created and the request passes. -/
theorem rateLimiterStep_none_pass (opts : RLOptions) (now : Int)
    (hm : 0 < opts.maxRequests) :
    rateLimiterStep opts none now =
      (.pass ⟨opts.maxRequests, opts.maxRequests - 1,
          ceilDiv (now + opts.windowMs) 1000⟩,
       some ⟨1, now + opts.windowMs⟩) := by
  simp [rateLimiterStep, Nat.not_le.mpr hm]

/-- First request for a key with a zero limit: rejected, and the fresh
tracker is not stored. -/
theorem rateLimiterStep_none_zero (opts : RLOptions) (now : Int)
    (hm : opts.maxRequests = 0) :
    rateLimiterStep opts none now =
      (.reject (ceilDiv (now + opts.windowMs - now) 1000)
        ⟨opts.maxRequests, 0, ceilDiv (now + opts.windowMs) 1000⟩,
       none) := by
  simp [rateLimiterStep, hm]

/-- Unfolding equation for a run on one more request. -/
theorem rateLimiterRun_cons (opts : RLOptions) (e : Option RLTracker)
    (t : Int) (ts : List Int) :
    rateLimiterRun opts e (t :: ts) =
      ((rateLimiterStep opts e t).1 ::
        (rateLimiterRun opts (rateLimiterStep opts e t).2 ts).1,
       (rateLimiterRun opts (rateLimiterStep opts e t).2 ts).2) := rfl

/-- Window invariant: starting from a tracker with count `c ≤ limit`,
a batch of in-window requests drives the count to
`min (c + #requests) limit` and exactly that many minus `c` pass. -/
theorem rateLimiterRun_in_window (opts : RLOptions) :
    ∀ (ts : List Int) (c : Nat) (R : Int), c ≤ opts.maxRequests →
      (∀ t ∈ ts, ¬ t > R) →
      (rateLimiterRun opts (some ⟨c, R⟩) ts).2 =
        some ⟨Nat.min (c + ts.length) opts.maxRequests, R⟩ ∧
      (rateLimiterRun opts (some ⟨c, R⟩) ts).1.countP isPass =
        Nat.min (c + ts.length) opts.maxRequests - c := by
  intro ts
  induction ts with
  | nil =>
    intro c R hc hall
    refine ⟨?_, ?_⟩
    · simp [rateLimiterRun, Nat.min_eq_left hc]
    · simp [rateLimiterRun, Nat.min_eq_left hc]
  | cons t ts ih =>
    intro c R hc hall
    have ht : ¬ t > R := hall t (List.mem_cons_self t ts)
    have hall' : ∀ x ∈ ts, ¬ x > R := fun x hx =>
      hall x (List.mem_cons_of_mem t hx)
    by_cases hcm : opts.maxRequests ≤ c
    · obtain ⟨h2, h1⟩ := ih c R hc hall'
      rw [rateLimiterRun_cons, rateLimiterStep_some_reject opts c R t ht hcm]
      refine ⟨?_, ?_⟩
      · rw [h2]
        simp only [List.length_cons]
        have : Nat.min (c + ts.length) opts.maxRequests =
            Nat.min (c + (ts.length + 1)) opts.maxRequests := by
          simp only [Nat.min_def]
          split_ifs <;> omega
        rw [this]
      · simp only [List.length_cons, List.countP_cons]
        simp [isPass, h1]
        simp only [Nat.min_def]
        split_ifs <;> omega
    · have hlt : c < opts.maxRequests := Nat.not_le.mp hcm
      obtain ⟨h2, h1⟩ := ih (c + 1) R hlt hall'
      rw [rateLimiterRun_cons, rateLimiterStep_some_pass opts c R t ht hlt]
      refine ⟨?_, ?_⟩
      · rw [h2]
        simp only [List.length_cons]
        have : Nat.min (c + 1 + ts.length) opts.maxRequests =
            Nat.min (c + (ts.length + 1)) opts.maxRequests := by
          simp only [Nat.min_def]
          split_ifs <;> omega
        rw [this]
      · simp only [List.length_cons, List.countP_cons]
        simp [isPass, h1]
        simp only [Nat.min_def]
        split_ifs <;> omega

/-- A zero-limit configuration rejects every request and never stores a
tracker for an absent key. -/
theorem rateLimiterRun_none_zero (opts : RLOptions)
    (hm : opts.maxRequests = 0) :
    ∀ ts : List Int, (rateLimiterRun opts none ts).2 = none ∧
      (rateLimiterRun opts none ts).1.countP isPass = 0 := by
  intro ts
  induction ts with
  | nil => exact ⟨rfl, rfl⟩
  | cons t ts ih =>
    rw [rateLimiterRun_cons, rateLimiterStep_none_zero opts t hm]
    refine ⟨ih.1, ?_⟩
    simp [List.countP_cons, isPass, ih.2]

/-- Both outcomes carry the rate-limit headers with `limit = maxRequests`,
and a rejection reports `remaining = 0`. -/
theorem rateLimiterStep_headers (opts : RLOptions) (e : Option RLTracker)
    (now : Int) :
    (headersOf (rateLimiterStep opts e now).1).limit = opts.maxRequests ∧
    (∀ ra h, (rateLimiterStep opts e now).1 = .reject ra h →
      h.remaining = 0) := by
  rcases e with _ | ⟨c, R⟩
  · by_cases hm : 0 < opts.maxRequests
    · rw [rateLimiterStep_none_pass opts now hm]
      refine ⟨rfl, ?_⟩
      intro ra h hh
      simp at hh
    · have hm0 : opts.maxRequests = 0 := by omega
      rw [rateLimiterStep_none_zero opts now hm0]
      refine ⟨rfl, ?_⟩
      intro ra h hh
      simp only [RLOutcome.reject.injEq] at hh
      rw [← hh.2]
  · by_cases hexp : now > R
    · by_cases hm : 0 < opts.maxRequests
      · rw [rateLimiterStep_some_expired opts c R now hexp hm]
        refine ⟨rfl, ?_⟩
        intro ra h hh
        simp at hh
      · have hm0 : opts.maxRequests = 0 := by omega
        rw [rateLimiterStep_some_expired_zero opts c R now hexp hm0]
        refine ⟨rfl, ?_⟩
        intro ra h hh
        simp only [RLOutcome.reject.injEq] at hh
        rw [← hh.2]
    · by_cases hcm : opts.maxRequests ≤ c
      · rw [rateLimiterStep_some_reject opts c R now hexp hcm]
        refine ⟨rfl, ?_⟩
        intro ra h hh
        simp only [RLOutcome.reject.injEq] at hh
        rw [← hh.2]
      · rw [rateLimiterStep_some_pass opts c R now hexp (Nat.not_le.mp hcm)]
        refine ⟨rfl, ?_⟩
        intro ra h hh
        simp at hh

/-- C5 counterexample: with limit 1 and a 60000 ms window, the second
request arrives at exactly the stored reset time; the code still treats
this as inside the window (expiry requires `now > resetTime`), rejects the
request, and computes `retryAfterSeconds = ceil((resetTime - now)/1000)
= 0`, which is not `> 0` as the claim requires. -/
theorem rateLimiter_retryAfter_zero_at_boundary :
    (rateLimiterRun ⟨60000, 1⟩ none [0]).2 = some ⟨1, 60000⟩ ∧
    ¬ (60000 : Int) > (60000 : Int) ∧
    rateLimiterStep ⟨60000, 1⟩ (some ⟨1, 60000⟩) 60000 =
      (.reject 0 ⟨1, 0, 60⟩, some ⟨1, 60000⟩) ∧
    ¬ (0 : Int) > 0 :=
  ⟨rfl, by decide, rfl, by decide⟩

/-- C5 (amended): for each key, exactly `maxRequests` of the requests
sharing one window pass; the `(maxRequests+1)`th request of the window is
rejected with `retryAfterSeconds ≥ 0` — strictly positive whenever it
arrives strictly before the window's reset time, and `0` exactly at the
reset time — leaving the counter unchanged; after the window expires the
counter is reset and requests pass again; and the limit/remaining/reset
headers are set on every response, rejected or not, with a rejection
reporting `remaining = 0`. -/
theorem rateLimiter_spec (opts : RLOptions) :
    (∀ t0 : Int, ∀ ts : List Int, (∀ t ∈ ts, ¬ t > t0 + opts.windowMs) →
      (rateLimiterRun opts none (t0 :: ts)).1.countP isPass =
        Nat.min (ts.length + 1) opts.maxRequests) ∧
    (∀ t0 : Int, ∀ ts : List Int, ∀ tn : Int,
      (∀ t ∈ ts, ¬ t > t0 + opts.windowMs) →
      ts.length + 1 = opts.maxRequests →
      ¬ tn > t0 + opts.windowMs →
      rateLimiterStep opts (rateLimiterRun opts none (t0 :: ts)).2 tn =
        (.reject (ceilDiv (t0 + opts.windowMs - tn) 1000)
          ⟨opts.maxRequests, 0, ceilDiv (t0 + opts.windowMs) 1000⟩,
         (rateLimiterRun opts none (t0 :: ts)).2) ∧
      0 ≤ ceilDiv (t0 + opts.windowMs - tn) 1000 ∧
      (tn < t0 + opts.windowMs →
        0 < ceilDiv (t0 + opts.windowMs - tn) 1000)) ∧
    (∀ c : Nat, ∀ R now : Int, now > R → 0 < opts.maxRequests →
      rateLimiterStep opts (some ⟨c, R⟩) now =
        (.pass ⟨opts.maxRequests, opts.maxRequests - 1,
            ceilDiv (now + opts.windowMs) 1000⟩,
         some ⟨1, now + opts.windowMs⟩)) ∧
    (∀ e : Option RLTracker, ∀ now : Int,
      (headersOf (rateLimiterStep opts e now).1).limit = opts.maxRequests ∧
      (∀ ra h, (rateLimiterStep opts e now).1 = .reject ra h →
        h.remaining = 0)) := by
  refine ⟨?_, ?_, ?_, ?_⟩
  · intro t0 ts hall
    by_cases hm : 0 < opts.maxRequests
    · rw [rateLimiterRun_cons, rateLimiterStep_none_pass opts t0 hm]
      obtain ⟨h2, h1⟩ :=
        rateLimiterRun_in_window opts ts 1 (t0 + opts.windowMs) hm hall
      simp [List.countP_cons, isPass, h1]
      simp only [Nat.min_def]
      split_ifs <;> omega
    · have hm0 : opts.maxRequests = 0 := by omega
      have h := rateLimiterRun_none_zero opts hm0 (t0 :: ts)
      rw [h.2, hm0]
      simp [Nat.min_zero]
  · intro t0 ts tn hall hlen htn
    have hm : 0 < opts.maxRequests := by omega
    rw [rateLimiterRun_cons, rateLimiterStep_none_pass opts t0 hm]
    obtain ⟨h2, h1⟩ :=
      rateLimiterRun_in_window opts ts 1 (t0 + opts.windowMs) hm hall
    rw [h2]
    have hmin : Nat.min (1 + ts.length) opts.maxRequests =
        opts.maxRequests := Nat.min_eq_right (by omega)
    rw [hmin]
    refine ⟨rateLimiterStep_some_reject opts opts.maxRequests
      (t0 + opts.windowMs) tn htn le_rfl, ?_, ?_⟩
    · unfold ceilDiv
      exact Int.ediv_nonneg (by omega) (by omega)
    · intro hlt
      have h1000 : (0 : Int) < 1000 := by omega
      have hge : (1 : Int) ≤
          Int.ediv (t0 + opts.windowMs - tn + 1000 - 1) 1000 := by
        rw [show Int.ediv (t0 + opts.windowMs - tn + 1000 - 1) 1000 =
            (t0 + opts.windowMs - tn + 1000 - 1) / 1000 from rfl,
          Int.le_ediv_iff_mul_le h1000]
        omega
      unfold ceilDiv
      omega
  · intro c R now hexp hm
    exact rateLimiterStep_some_expired opts c R now hexp hm
  · intro e now
    exact rateLimiterStep_headers opts e now

/-- Witness for C5 (amended): limit 2, window 60000 ms — two requests
pass, the third is rejected with `retryAfter = 60`, and an expired window
resets. -/
theorem rateLimiter_spec_witness :
    (rateLimiterRun ⟨60000, 2⟩ none [(0 : Int), 1]).1.countP isPass = 2 ∧
    rateLimiterStep ⟨60000, 2⟩
        (rateLimiterRun ⟨60000, 2⟩ none [(0 : Int), 1]).2 2 =
      (.reject 60 ⟨2, 0, 60⟩,
       (rateLimiterRun ⟨60000, 2⟩ none [(0 : Int), 1]).2) ∧
    rateLimiterStep ⟨60000, 2⟩ (some ⟨1, 5⟩) 10 =
      (.pass ⟨2, 1, 61⟩, some ⟨1, 60010⟩) :=
  ⟨(rateLimiter_spec ⟨60000, 2⟩).1 0 [1] (by decide),
   ((rateLimiter_spec ⟨60000, 2⟩).2.1 0 [1] 2 (by decide) rfl (by decide)).1,
   (rateLimiter_spec ⟨60000, 2⟩).2.2.1 1 5 10 (by decide) (by decide)⟩

end CloudAuth
